import Mathlib

/-!
Shallow embedding of kis9a/cockroachdb-errors-example.

Go `error` values are modelled as `Option GoErr` (`none` = nil).  A `GoErr`
is a node of the causal chain built by the cockroachdb/errors combinators
used in this repository: `New`/`Errorf` leaves, the `*ExchangeError` leaf
type, `Mark`, `Wrap`/`Wrapf`, `WithStack`, `WithDomain`, `WithHint`,
`WithDetailf`, `WithTelemetry`, plus the standard `context.Canceled`
sentinel.  `crdberrors.Is(err, ref)` for the two sentinel references
`ErrTemporary`/`ErrPermanent` walks the chain and reports true at a level
that is a `Mark` with the sentinel's mark, or a `New` leaf whose message
equals the sentinel's message (cockroachdb/errors marks compare by type and
message, and the sentinels are themselves `New` leaves).  The
`*ExchangeError` leaf has a different dynamic type, so it never matches a
sentinel.
-/

namespace CrdbEx

/-- The two sentinel errors used as mark references in `domain/errors.go`:
`ErrTemporary = crdberrors.New("temporary error")` and
`ErrPermanent = crdberrors.New("permanent error")`. -/
inductive Sentinel where
  | temporary
  | permanent
deriving DecidableEq

/-- Error domains registered in `domain/errors.go` via `NamedDomain`,
plus cockroachdb/errors' `NoDomain`. -/
inductive ErrDomain where
  | noDomain
  | usecase
  | adapters
  | exchange
deriving DecidableEq

/-- A node in a cockroachdb/errors causal chain, restricted to the
constructors this repository uses. -/
inductive GoErr where
  | new (msg : String)
  | exchangeLeaf (code msg : String) (retry : Bool)
  | ctxCanceled
  | mark (s : Sentinel) (e : GoErr)
  | wrap (msg : String) (e : GoErr)
  | withStack (e : GoErr)
  | withDomain (d : ErrDomain) (e : GoErr)
  | withHint (h : String) (e : GoErr)
  | withDetail (d : String) (e : GoErr)
  | withTelemetry (k : String) (e : GoErr)
deriving DecidableEq

/-- Message of the sentinel reference errors. -/
def sentinelMsg : Sentinel → String
  | .temporary => "temporary error"
  | .permanent => "permanent error"

/-- Query `crdberrors.Is(e, sentinel)`: walk the chain; a level matches when it is
a `Mark` with the sentinel's mark or a `New` leaf with the sentinel's
message (same type and message as the sentinel reference). -/
def isSentinel (e : GoErr) (s : Sentinel) : Bool :=
  match e with
  | .new msg => msg == sentinelMsg s
  | .exchangeLeaf _ _ _ => false
  | .ctxCanceled => false
  | .mark s' e' => s' == s || isSentinel e' s
  | .wrap _ e' => isSentinel e' s
  | .withStack e' => isSentinel e' s
  | .withDomain _ e' => isSentinel e' s
  | .withHint _ e' => isSentinel e' s
  | .withDetail _ e' => isSentinel e' s
  | .withTelemetry _ e' => isSentinel e' s

/-- Function `domain.MarkTemporary`: `crdberrors.Mark(err, ErrTemporary)`. -/
def MarkTemporary (e : GoErr) : GoErr := .mark .temporary e

/-- Function `domain.IsTemporary`: `crdberrors.Is(err, ErrTemporary)`. -/
def IsTemporary (e : GoErr) : Bool := isSentinel e .temporary

/-- Function `domain.MarkPermanent`: `crdberrors.Mark(err, ErrPermanent)`. -/
def MarkPermanent (e : GoErr) : GoErr := .mark .permanent e

/-- Function `domain.IsPermanent`: `crdberrors.Is(err, ErrPermanent)`. -/
def IsPermanent (e : GoErr) : Bool := isSentinel e .permanent

/-- Function `crdberrors.GetDomain`: first `WithDomain` annotation found walking the
chain from the outside in, `NoDomain` when there is none. -/
def GetDomain : GoErr → ErrDomain
  | .new _ => .noDomain
  | .exchangeLeaf _ _ _ => .noDomain
  | .ctxCanceled => .noDomain
  | .mark _ e => GetDomain e
  | .wrap _ e => GetDomain e
  | .withStack e => GetDomain e
  | .withDomain d _ => d
  | .withHint _ e => GetDomain e
  | .withDetail _ e => GetDomain e
  | .withTelemetry _ e => GetDomain e

/-- Message rendering via `Error()`: `crdberrors.Wrap` prefixes `"msg: "` to the
wrapped error's message; annotations are message-transparent. -/
def errMsg : GoErr → String
  | .new msg => msg
  | .exchangeLeaf code msg _ => "exchange error [" ++ code ++ "]: " ++ msg
  | .ctxCanceled => "context canceled"
  | .mark _ e => errMsg e
  | .wrap msg e => msg ++ ": " ++ errMsg e
  | .withStack e => errMsg e
  | .withDomain _ e => errMsg e
  | .withHint _ e => errMsg e
  | .withDetail _ e => errMsg e
  | .withTelemetry _ e => errMsg e

/-- Function `crdberrors.Wrapf(err, msg)`: returns nil when `err` is nil, otherwise
adds a message prefix boundary. -/
def wrapf (e : Option GoErr) (msg : String) : Option GoErr :=
  match e with
  | none => none
  | some e' => some (.wrap msg e')

/-- Function `domain.NewExchangeError(code, message, retry)`: builds the
`*ExchangeError` base, adds stack + exchange domain, a detail, a
temporary/permanent mark with matching hint, and a telemetry key.  The Go
function always returns a non-nil error. -/
def NewExchangeError (code message : String) (retry : Bool) : Option GoErr :=
  let base := GoErr.exchangeLeaf code message retry
  let wrapped := GoErr.withDomain .exchange (.withStack base)
  let wrapped := GoErr.withDetail
    ("code=" ++ code ++ " retry=" ++ (if retry then "true" else "false")) wrapped
  let wrapped :=
    if retry then
      GoErr.withHint "This error is temporary and can be retried" (MarkTemporary wrapped)
    else
      GoErr.withHint "This error is permanent and should not be retried" (MarkPermanent wrapped)
  some (GoErr.withTelemetry ("exchange.error." ++ code) wrapped)

/-- Function `domain.WrapWithDomain(err, msg, domain)`: nil stays nil; otherwise
`WithDomain(Wrap(err, msg), domain)`. -/
def WrapWithDomain (e : Option GoErr) (msg : String) (d : ErrDomain) : Option GoErr :=
  match e with
  | none => none
  | some e' => some (.withDomain d (.wrap msg e'))

/-- Function `domain.WrapWithStack(err, msg)`: nil stays nil; otherwise
`WithStack(Wrap(err, msg))`. -/
def WrapWithStack (e : Option GoErr) (msg : String) : Option GoErr :=
  match e with
  | none => none
  | some e' => some (.withStack (.wrap msg e'))

/-!
Retry driver, `RetryWithBackoff` in the README example
(`operation func(context.Context) error, maxRetries int, initialDelay
time.Duration`).  Durations are `time.Duration` = int64 nanoseconds,
modelled as `Int`; Go's `/` on int64 truncates toward zero, which is
`Int.tdiv`.  The operation is modelled as a function from the 1-based
attempt number to its returned error.  The driver's observable behaviour is
a `RetryTrace`: how many times the operation was invoked, the list of
backoff waits actually slept (`delay + delay/5` each round), and the
returned error (`none` = nil).

The context used in the `select` is created inside the function from
`context.Background()` with `defer cancel()`, so its Done channel cannot
become ready before the function returns: the `<-ctx.Done()` branch is
unreachable and the timer branch is always taken. `internalCtxDone` encodes
that fact.
-/

/-- Value `5 * time.Second` in nanoseconds, the delay cap in `RetryWithBackoff`. -/
def capDelay : Int := 5000000000

/-- Whether the internal context's Done channel is ready during a backoff
wait: `cancel` runs only via `defer` when `RetryWithBackoff` returns, and no
other code can cancel the internally created context, so never. -/
def internalCtxDone : Bool := false

/-- Update `delay *= 2; if delay > 5*time.Second { delay = 5*time.Second }`. -/
def nextDelay (delay : Int) : Int :=
  if delay * 2 > capDelay then capDelay else delay * 2

/-- The actual wait of one round: `d := delay + time.Duration(int64(delay)/5)`. -/
def backoffWait (delay : Int) : Int := delay + delay.tdiv 5

/-- The message of the error wrapped around the last failure:
`"operation failed after %d attempts"` with `maxRetries`. -/
def retryFailMsg (maxRetries : Int) : String :=
  "operation failed after " ++ toString maxRetries ++ " attempts"

/-- Observable outcome of one `RetryWithBackoff` call. -/
structure RetryTrace where
  invocations : Nat
  waits : List Int
  result : Option GoErr
deriving DecidableEq

/-- The retry loop `for attempt := 1; attempt <= maxRetries; attempt++`,
with `fuel` the number of loop iterations still allowed
(`maxRetries - attempt + 1` at entry).  Mirrors the README source:
success returns nil; a failure with `!domain.IsTemporary(err)` is returned
unchanged; a temporary failure with `attempt < maxRetries` sleeps
`backoffWait delay` (the Done branch of the `select` being unreachable) and
continues with the doubled-and-capped delay; a temporary failure on the
last attempt falls out of the loop into
`crdberrors.Wrapf(lastErr, "operation failed after %d attempts", maxRetries)`. -/
def retryGo (op : Nat → Option GoErr) (maxRetries : Int) :
    Nat → Nat → Int → Option GoErr → Nat → List Int → RetryTrace
  | 0, _, _, lastErr, invocs, waits =>
      ⟨invocs, waits, wrapf lastErr (retryFailMsg maxRetries)⟩
  | fuel + 1, attempt, delay, _, invocs, waits =>
      match op attempt with
      | none => ⟨invocs + 1, waits, none⟩
      | some err =>
        if IsTemporary err then
          if (attempt : Int) < maxRetries then
            if internalCtxDone then
              ⟨invocs + 1, waits, some .ctxCanceled⟩
            else
              retryGo op maxRetries fuel (attempt + 1) (nextDelay delay)
                (some err) (invocs + 1) (waits ++ [backoffWait delay])
          else
            ⟨invocs + 1, waits, wrapf (some err) (retryFailMsg maxRetries)⟩
        else
          ⟨invocs + 1, waits, some err⟩

/-- Driver `RetryWithBackoff(operation, maxRetries, initialDelay)`.  The loop runs
at most `max maxRetries 0` iterations; `lastErr` starts nil and the
attempt counter starts at 1. -/
def RetryWithBackoff (op : Nat → Option GoErr) (maxRetries : Int)
    (initialDelay : Int) : RetryTrace :=
  retryGo op maxRetries maxRetries.toNat 1 initialDelay none 0 []

/-- The wait sequence produced by `m` consecutive backoff rounds starting
from `delay`: each round sleeps `backoffWait delay` and continues with
`nextDelay delay`. -/
def waitSeq (delay : Int) : Nat → List Int
  | 0 => []
  | m + 1 => backoffWait delay :: waitSeq (nextDelay delay) m

/-- The wait a round performs once the delay has reached the cap. -/
def capWait : Int := backoffWait capDelay

/-- Boolean checker for adjacent waits: each consecutive pair strictly
increases, except that the capped wait may repeat. -/
def strictThenCappedB : List Int → Bool
  | a :: b :: rest =>
      (decide (a < b) || (a == capWait && b == capWait)) &&
        strictThenCappedB (b :: rest)
  | _ => true

/-- The spec's reading of P4's delays: consecutive observed waits strictly
increase, except that once the capped wait is reached it repeats. -/
def StrictThenCapped (l : List Int) : Prop :=
  strictThenCappedB l = true

/-- Spec-modelled (from the spec: "the backoff wait must be cancelable via
an externally supplied cancellation signal ... checked via a non-blocking
race between the wait completing and the signal firing"): a variant of the
driver that takes the caller's cancellation signal, `sig k = true` meaning
the signal fires during the backoff wait of round `k`; firing makes the
driver return the cancellation error at once.  The Go source has no such
parameter — this definition exists to state what the spec asks for. -/
def retryGoCancelable (sig : Nat → Bool) (op : Nat → Option GoErr) (maxRetries : Int) :
    Nat → Nat → Int → Option GoErr → Nat → List Int → RetryTrace
  | 0, _, _, lastErr, invocs, waits =>
      ⟨invocs, waits, wrapf lastErr (retryFailMsg maxRetries)⟩
  | fuel + 1, attempt, delay, _, invocs, waits =>
      match op attempt with
      | none => ⟨invocs + 1, waits, none⟩
      | some err =>
        if IsTemporary err then
          if (attempt : Int) < maxRetries then
            if sig attempt then
              ⟨invocs + 1, waits, some .ctxCanceled⟩
            else
              retryGoCancelable sig op maxRetries fuel (attempt + 1) (nextDelay delay)
                (some err) (invocs + 1) (waits ++ [backoffWait delay])
          else
            ⟨invocs + 1, waits, wrapf (some err) (retryFailMsg maxRetries)⟩
        else
          ⟨invocs + 1, waits, some err⟩

/-- Spec-modelled driver with an externally supplied cancellation signal. -/
def RetryWithBackoffCancelable (sig : Nat → Bool) (op : Nat → Option GoErr)
    (maxRetries : Int) (initialDelay : Int) : RetryTrace :=
  retryGoCancelable sig op maxRetries maxRetries.toNat 1 initialDelay none 0 []

/-!
Logging facade `logx` (`src/unnamed/part_000`): `argsToAttrs` converts the
variadic `kv ...any` into `slog.Attr` pairs.  Go's `any` values are
modelled by `GoVal`; `fmt.Sprint` is `goSprint`.
-/

/-- A dynamically typed logging argument (`any` in Go), restricted to the
kinds of values the repository passes. -/
inductive GoVal where
  | str (s : String)
  | int (n : Int)
  | bool (b : Bool)
  | dur (ns : Int)
deriving DecidableEq

/-- Default `fmt.Sprint` stringification of a `GoVal`. -/
def goSprint : GoVal → String
  | .str s => s
  | .int n => toString n
  | .bool b => if b then "true" else "false"
  | .dur ns => toString ns ++ "ns"

/-- The key for one pair: `k, ok := key.(string); if !ok ❴ k = fmt.Sprint(key) ❵`. -/
def attrKey : GoVal → String
  | .str s => s
  | v => goSprint v

/-- The pairing loop of `argsToAttrs`:
`for i := 0; i+1 < len(kv); i += 2 ❴ ... ❵`. -/
def pairUp : List GoVal → List (String × GoVal)
  | k :: v :: rest => (attrKey k, v) :: pairUp rest
  | _ => []

/-- The length-enforcement step of `argsToAttrs`:
`if len(kv)%2 != 0 ❴ kv = kv[:len(kv)-1] ❵`. -/
def truncOdd (kv : List GoVal) : List GoVal :=
  if kv.length % 2 ≠ 0 then kv.dropLast else kv

/-- Function `logx.argsToAttrs`: drop a trailing unmatched value, then pair up. -/
def argsToAttrs (kv : List GoVal) : List (String × GoVal) :=
  pairUp (truncOdd kv)

/-!
`UserService` from `src/examples/04_http_handler/main.go`.  The store
`map[int]*User` is modelled as an association list; `len` is list length
and `m[k] = v` is `mapInsert` (replace if present, append otherwise).  The
10%-of-requests simulated flakiness (`time.Now().Unix()%10 == 0`) is an
explicit `flaky` input, and `time.Now()` for `CreatedAt` an explicit `now`
input.  The Go methods mutate the receiver's map; the embedding passes the
store explicitly and returns the (possibly updated) store alongside the
result.
-/

/-- The `User` entity. -/
structure User where
  id : Nat
  name : String
  email : String
  createdAt : Nat
deriving DecidableEq

/-- Go map read `m[k]`. -/
def mapLookup : List (Nat × User) → Nat → Option User
  | [], _ => none
  | (k, v) :: rest, id => if k = id then some v else mapLookup rest id

/-- Go map write `m[k] = v`: replace the entry if the key is present,
append it otherwise. -/
def mapInsert : List (Nat × User) → Nat → User → List (Nat × User)
  | [], k, v => [(k, v)]
  | (k', v') :: rest, k, v =>
      if k' = k then (k, v) :: rest else (k', v') :: mapInsert rest k v

/-- The error built by `GetUser` on a simulated flaky round. -/
def flakyFetchErr : GoErr :=
  .withStack (.wrap "failed to fetch user from database"
    (.withHint "Retry the request"
      (.withDomain .adapters
        (MarkTemporary (.new "database connection timeout")))))

/-- The error built by `GetUser` when the id is absent. -/
def notFoundErr (id : Nat) : GoErr :=
  MarkPermanent (.withDomain .adapters
    (.new ("user with id " ++ toString id ++ " not found")))

/-- The error built by `CreateUser` on an empty name. -/
def nameRequiredErr : GoErr :=
  .withHint "Provide a valid name"
    (MarkPermanent (.withDomain .usecase (.new "name is required")))

/-- The error built by `CreateUser` on an empty email. -/
def emailRequiredErr : GoErr :=
  .withHint "Provide a valid email address"
    (MarkPermanent (.withDomain .usecase (.new "email is required")))

/-- Method `UserService.GetUser`: on a flaky round return the temporary wrapped
fetch error; otherwise look the id up, returning the permanent
adapters-domain error when absent.  The store is never written. -/
def GetUser (users : List (Nat × User)) (id : Nat) (flaky : Bool) :
    (Except GoErr User) × List (Nat × User) :=
  if flaky then
    (.error flakyFetchErr, users)
  else
    match mapLookup users id with
    | some u => (.ok u, users)
    | none => (.error (notFoundErr id), users)

/-- Method `UserService.CreateUser`: validate name and email, then insert a new
user under `len(s.users) + 1`. -/
def CreateUser (users : List (Nat × User)) (name email : String) (now : Nat) :
    (Except GoErr User) × List (Nat × User) :=
  if name = "" then
    (.error nameRequiredErr, users)
  else if email = "" then
    (.error emailRequiredErr, users)
  else
    let newID := users.length + 1
    let u : User := ⟨newID, name, email, now⟩
    (.ok u, mapInsert users newID u)

/-!
Concrete inputs used by witnesses and counterexamples.
-/

/-- A temporary-classified error. -/
def tempE : GoErr := MarkTemporary (.new "boom")

/-- A permanent-classified error. -/
def permE : GoErr := MarkPermanent (.new "boom")

/-- Operation failing temporarily on attempts 1 and 2, succeeding from 3. -/
def opTwoFails : Nat → Option GoErr := fun k => if k < 3 then some tempE else none

/-- Operation failing with a temporary error on every attempt. -/
def opAllTemp : Nat → Option GoErr := fun _ => some tempE

/-- Operation failing with a permanent error on every attempt. -/
def opAllPerm : Nat → Option GoErr := fun _ => some permE

/-- A caller cancellation signal firing during the first backoff wait. -/
def fireAtWaitOne : Nat → Bool := fun k => k == 1

/-- A three-user store, the initial state of `NewUserService`. -/
def usersABC : List (Nat × User) :=
  [(1, ⟨1, "Alice", "alice@example.com", 10⟩),
   (2, ⟨2, "Bob", "bob@example.com", 10⟩),
   (3, ⟨3, "Charlie", "charlie@example.com", 10⟩)]

instance : DecidablePred StrictThenCapped := fun l =>
  inferInstanceAs (Decidable (strictThenCappedB l = true))

/-!
Helper lemmas.
-/

/-- Marking with one sentinel does not change the query for the other:
`Mark` only adds a level, and the added level matches only its own mark. -/
theorem isSentinel_mark_other (s s' : Sentinel) (e : GoErr) (h : s ≠ s') :
    isSentinel (.mark s e) s' = isSentinel e s' := by
  simp [isSentinel]
  intro hc
  exact absurd hc h

/-- C4 counterexample: the claim asserts
`isPermanent(markTemporary(e)) == false` for every `e`, but marks
accumulate along the chain: for `e` already marked permanent, the
permanent mark is still found under the fresh temporary mark. -/
theorem mark_both_counterexample :
    IsTemporary (MarkTemporary (MarkPermanent (.new "boom"))) = true ∧
    IsPermanent (MarkTemporary (MarkPermanent (.new "boom"))) = true := by
  decide

/-- C4 (amended): `isTemporary(markTemporary(e))` is always true and
`isPermanent(markPermanent(e))` is always true; the opposite query is
unchanged by the mark, so `isPermanent(markTemporary(e))` is false exactly
when `e` carried no permanent association already (and symmetrically). -/
theorem mark_classification (e : GoErr) :
    IsTemporary (MarkTemporary e) = true ∧
    IsPermanent (MarkPermanent e) = true ∧
    (IsPermanent e = false → IsPermanent (MarkTemporary e) = false) ∧
    (IsTemporary e = false → IsTemporary (MarkPermanent e) = false) := by
  refine ⟨by simp [IsTemporary, MarkTemporary, isSentinel],
          by simp [IsPermanent, MarkPermanent, isSentinel], ?_, ?_⟩
  · intro h
    rw [IsPermanent, MarkTemporary, isSentinel_mark_other _ _ _ (by decide)]
    exact h
  · intro h
    rw [IsTemporary, MarkPermanent, isSentinel_mark_other _ _ _ (by decide)]
    exact h

/-- C4 witness: on an unmarked error the amended claim gives exactly the
original statement's conclusions. -/
theorem mark_classification_witness :
    IsTemporary (MarkTemporary (.new "x")) = true ∧
    IsPermanent (MarkTemporary (.new "x")) = false ∧
    IsPermanent (MarkPermanent (.new "x")) = true ∧
    IsTemporary (MarkPermanent (.new "x")) = false := by
  have h := mark_classification (.new "x")
  exact ⟨h.1, h.2.2.1 (by decide), h.2.1, h.2.2.2 (by decide)⟩

/-- C8: `NewExchangeError(code, message, retry)` returns a non-nil error
that is temporary iff `retry`, permanent iff `!retry`, and carries the
exchange domain. -/
theorem newExchangeError_classification (code message : String) (retry : Bool) :
    ∃ e, NewExchangeError code message retry = some e ∧
      IsTemporary e = retry ∧
      IsPermanent e = !retry ∧
      GetDomain e = .exchange := by
  cases retry <;>
    exact ⟨_, rfl, rfl, rfl, rfl⟩

/-- C10: wrapping a nil error with a domain or a stack yields nil for every
message and domain; a nil error is never turned into a non-nil one. -/
theorem wrap_nil_is_nil (msg : String) (d : ErrDomain) :
    WrapWithDomain none msg d = none ∧ WrapWithStack none msg = none :=
  ⟨rfl, rfl⟩

/-- C1: when the first attempt fails with an error not classified
temporary, the driver makes exactly one invocation, sleeps no backoff
wait, and returns that error unchanged. -/
theorem retry_permanent_aborts (op : Nat → Option GoErr) (maxRetries : Int)
    (initialDelay : Int) (e : GoErr) (hmax : 1 ≤ maxRetries)
    (hop : op 1 = some e) (hperm : IsTemporary e = false) :
    RetryWithBackoff op maxRetries initialDelay = ⟨1, [], some e⟩ := by
  obtain ⟨k, hk⟩ : ∃ k, maxRetries.toNat = k + 1 := ⟨maxRetries.toNat - 1, by omega⟩
  rw [RetryWithBackoff, hk]
  simp [retryGo, hop, hperm]

/-- C1 witness: a permanently marked failure on attempt 1 with
`maxRetries = 5` gives one invocation, no waits, and the error unchanged. -/
theorem retry_permanent_aborts_witness :
    RetryWithBackoff opAllPerm 5 100000000 = ⟨1, [], some permE⟩ :=
  retry_permanent_aborts opAllPerm 5 100000000 permE (by decide) rfl (by decide)

/-- C5: with `maxRetries <= 0` the loop body never runs, the operation is
never invoked, and the driver returns nil, because
`crdberrors.Wrapf(nil, ...)` returns nil. -/
theorem retry_nonpositive_returns_nil (op : Nat → Option GoErr)
    (maxRetries : Int) (initialDelay : Int) (h : maxRetries ≤ 0) :
    RetryWithBackoff op maxRetries initialDelay = ⟨0, [], none⟩ := by
  have h0 : maxRetries.toNat = 0 := by omega
  rw [RetryWithBackoff, h0]
  rfl

/-- C5 witness: `maxRetries = 0` with an always-failing operation still
reports success with zero invocations. -/
theorem retry_nonpositive_returns_nil_witness :
    RetryWithBackoff opAllTemp 0 100000000 = ⟨0, [], none⟩ :=
  retry_nonpositive_returns_nil opAllTemp 0 100000000 (by decide)

/-- Positivity is preserved by the delay update. -/
theorem nextDelay_pos (d : Int) (h : 0 < d) : 0 < nextDelay d := by
  rw [nextDelay]
  split
  · rw [capDelay]
    omega
  · omega

/-- The delay update never exceeds the cap. -/
theorem nextDelay_le_cap (d : Int) : nextDelay d ≤ capDelay := by
  rw [nextDelay]
  split
  · exact le_rfl
  · omega

/-- Below the cap, the delay update strictly increases the delay. -/
theorem lt_nextDelay (d : Int) (h0 : 0 < d) (hlt : d < capDelay) :
    d < nextDelay d := by
  rw [nextDelay]
  split
  · exact hlt
  · omega

/-- At the cap, the delay update keeps the delay at the cap. -/
theorem nextDelay_cap : nextDelay capDelay = capDelay := by
  rw [nextDelay]
  split
  · rfl
  · rw [capDelay] at *
    omega

/-- The observed wait is strictly monotone in the delay, on nonnegative
delays. -/
theorem backoffWait_lt_backoffWait (a b : Int) (ha : 0 ≤ a) (hab : a < b) :
    backoffWait a < backoffWait b := by
  have hb : 0 ≤ b := by omega
  have h5 : a.tdiv 5 ≤ b.tdiv 5 := by
    rw [Int.tdiv_eq_ediv ha (by norm_num), Int.tdiv_eq_ediv hb (by norm_num)]
    exact Int.ediv_le_ediv (by norm_num) (le_of_lt hab)
  rw [backoffWait, backoffWait]
  omega

/-- Started from a positive delay no larger than the cap, the wait
sequence strictly increases until it repeats the capped wait. -/
theorem waitSeq_strictThenCapped (m : Nat) :
    ∀ d : Int, 0 < d → d ≤ capDelay → StrictThenCapped (waitSeq d m) := by
  induction m with
  | zero =>
    intro d _ _
    rfl
  | succ k ih =>
    intro d h0 hc
    cases k with
    | zero => rfl
    | succ k' =>
      have hrec := ih (nextDelay d) (nextDelay_pos d h0) (nextDelay_le_cap d)
      rw [StrictThenCapped] at hrec ⊢
      rw [waitSeq] at hrec ⊢
      rw [waitSeq, strictThenCappedB, Bool.and_eq_true]
      refine ⟨?_, hrec⟩
      rw [Bool.or_eq_true]
      rcases lt_or_eq_of_le hc with hlt | heq
      · left
        exact decide_eq_true (backoffWait_lt_backoffWait d (nextDelay d)
          (le_of_lt h0) (lt_nextDelay d h0 hlt))
      · right
        subst heq
        rw [Bool.and_eq_true, beq_iff_eq, beq_iff_eq, capWait, nextDelay_cap]
        exact ⟨rfl, rfl⟩

/-- Core loop lemma for the failing-then-succeeding scenario: if the
operation fails with temporary-classified errors on attempts
`attempt .. attempt+m-1` and succeeds on attempt `attempt+m`, and fuel and
`maxRetries` allow reaching it, the loop performs `m+1` further
invocations, appends exactly the backoff waits of `waitSeq delay m`, and
returns nil. -/
theorem retryGo_temp_then_succ (op : Nat → Option GoErr) (n : Int) :
    ∀ (m fuel attempt : Nat) (delay : Int) (lastErr : Option GoErr)
      (invocs : Nat) (waits : List Int),
      m < fuel →
      (attempt : Int) + m ≤ n →
      (∀ j, j < m → ∃ e, op (attempt + j) = some e ∧ IsTemporary e = true) →
      op (attempt + m) = none →
      retryGo op n fuel attempt delay lastErr invocs waits =
        ⟨invocs + m + 1, waits ++ waitSeq delay m, none⟩ := by
  intro m
  induction m with
  | zero =>
    intro fuel attempt delay lastErr invocs waits hf _ _ hs
    obtain ⟨f, rfl⟩ : ∃ f, fuel = f + 1 := ⟨fuel - 1, by omega⟩
    rw [Nat.add_zero] at hs
    simp [retryGo, hs, waitSeq]
  | succ k ih =>
    intro fuel attempt delay lastErr invocs waits hf hn hfail hs
    obtain ⟨f, rfl⟩ : ∃ f, fuel = f + 1 := ⟨fuel - 1, by omega⟩
    obtain ⟨e, hope, htemp⟩ := hfail 0 (Nat.succ_pos k)
    rw [Nat.add_zero] at hope
    have hlt : (attempt : Int) < n := by omega
    rw [retryGo, hope]
    simp only [htemp, if_true, if_pos hlt, internalCtxDone, if_false, Bool.false_eq_true]
    have hrec := ih f (attempt + 1) (nextDelay delay) (some e) (invocs + 1)
      (waits ++ [backoffWait delay]) (by omega) (by push_cast; push_cast at hn; omega)
      (fun j hj => by
        have := hfail (j + 1) (by omega)
        rwa [show attempt + (j + 1) = attempt + 1 + j by omega] at this)
      (by rwa [show attempt + 1 + k = attempt + (k + 1) by omega])
    rw [hrec]
    rw [RetryTrace.mk.injEq]
    refine ⟨by omega, ?_, rfl⟩
    rw [List.append_assoc, List.singleton_append, waitSeq]

/-- Core loop lemma for the always-temporary scenario: if every attempt
from `attempt` through `maxRetries` fails with a temporary-classified
error and the fuel matches the remaining attempts, the loop performs
exactly `fuel` further invocations and returns the last error wrapped in
the attempt-count message. -/
theorem retryGo_all_temp (op : Nat → Option GoErr) (n : Int) :
    ∀ (fuel attempt : Nat) (delay : Int) (lastErr : Option GoErr)
      (invocs : Nat) (waits : List Int),
      1 ≤ fuel →
      (attempt : Int) + fuel = n + 1 →
      (∀ j, attempt ≤ j → (j : Int) ≤ n → ∃ e, op j = some e ∧ IsTemporary e = true) →
      ∃ e, op (attempt + fuel - 1) = some e ∧
        (retryGo op n fuel attempt delay lastErr invocs waits).invocations =
          invocs + fuel ∧
        (retryGo op n fuel attempt delay lastErr invocs waits).result =
          some (.wrap (retryFailMsg n) e) := by
  intro fuel
  induction fuel with
  | zero =>
    intro attempt delay lastErr invocs waits h1
    omega
  | succ f ih =>
    intro attempt delay lastErr invocs waits _ h2 h3
    obtain ⟨e, hope, htemp⟩ := h3 attempt le_rfl (by push_cast at h2; omega)
    cases f with
    | zero =>
      have hnlt : ¬ (attempt : Int) < n := by push_cast at h2; omega
      refine ⟨e, by rwa [Nat.add_sub_cancel], ?_, ?_⟩ <;>
        simp [retryGo, hope, htemp, hnlt, wrapf]
    | succ f' =>
      have hlt : (attempt : Int) < n := by push_cast at h2; omega
      rw [retryGo, hope]
      simp only [htemp, if_true, if_pos hlt, internalCtxDone, if_false,
        Bool.false_eq_true]
      obtain ⟨e', hope', hi, hr⟩ := ih (attempt + 1) (nextDelay delay) (some e)
        (invocs + 1) (waits ++ [backoffWait delay]) (by omega)
        (by push_cast; push_cast at h2; omega)
        (fun j hj hjn => h3 j (by omega) hjn)
      refine ⟨e', by rwa [show attempt + 1 + (f' + 1) - 1 = attempt + (f' + 1 + 1) - 1 by omega] at hope', ?_, hr⟩
      rw [hi]
      omega

/-- C2 (amended): an operation failing with temporary-classified errors on
attempts `1..N-1` and succeeding on attempt `N ≤ maxAttempts` causes
exactly `N` invocations and the `N-1` backoff waits of `waitSeq`, where
each round sleeps `delay + delay/5` and continues with the delay doubled
and capped at 5s; when the initial delay is positive and at most the cap,
those waits strictly increase and then repeat the capped wait. -/
theorem retry_temp_then_success (op : Nat → Option GoErr) (maxRetries : Int)
    (initialDelay : Int) (N : Nat) (h1 : 1 ≤ N) (h2 : (N : Int) ≤ maxRetries)
    (hfail : ∀ j, 1 ≤ j → j < N → ∃ e, op j = some e ∧ IsTemporary e = true)
    (hsucc : op N = none) :
    RetryWithBackoff op maxRetries initialDelay =
      ⟨N, waitSeq initialDelay (N - 1), none⟩ ∧
    (0 < initialDelay → initialDelay ≤ capDelay →
      StrictThenCapped (waitSeq initialDelay (N - 1))) := by
  constructor
  · rw [RetryWithBackoff]
    have h := retryGo_temp_then_succ op maxRetries (N - 1) maxRetries.toNat 1
      initialDelay none 0 [] (by omega) (by omega)
      (fun j hj => hfail (1 + j) (by omega) (by omega))
      (by rwa [show 1 + (N - 1) = N by omega])
    rw [h, RetryTrace.mk.injEq]
    exact ⟨by omega, by rw [List.nil_append], rfl⟩
  · intro hd0 hdc
    exact waitSeq_strictThenCapped (N - 1) initialDelay hd0 hdc

/-- C2 witness: `maxAttempts = 3`, `initialDelay = 100ms`, temporary
failures on attempts 1 and 2, success on attempt 3: three invocations and
waits of exactly 120ms then 240ms, which are strictly increasing. -/
theorem retry_temp_then_success_witness :
    RetryWithBackoff opTwoFails 3 100000000 =
      ⟨3, [120000000, 240000000], none⟩ ∧
    StrictThenCapped [120000000, 240000000] := by
  have h := retry_temp_then_success opTwoFails 3 100000000 3 (by decide)
    (by decide)
    (fun j _ hj => ⟨tempE, by rw [opTwoFails, if_pos hj], by decide⟩)
    (by decide)
  constructor
  · rw [h.1]
    decide
  · have h2 := h.2 (by decide) (by decide)
    rwa [show waitSeq 100000000 (3 - 1) = [120000000, 240000000] from by decide] at h2

/-- C2 counterexample: with `initialDelay = 0` (attempts 1 and 2 failing
temporarily, success on attempt 3) the two observed waits are `[0, 0]`,
which is neither strictly increasing nor repetition of the capped wait, so
the claim's "strictly increasing then capped delays" fails as stated. -/
theorem retry_zero_delay_counterexample :
    (RetryWithBackoff opTwoFails 3 0).invocations = 3 ∧
    (RetryWithBackoff opTwoFails 3 0).result = none ∧
    (RetryWithBackoff opTwoFails 3 0).waits = [0, 0] ∧
    ¬ StrictThenCapped (RetryWithBackoff opTwoFails 3 0).waits := by
  decide

/-- C3: an operation failing with a temporary-classified error on every
attempt exhausts exactly `maxAttempts` invocations; the driver returns the
last error wrapped with the message `"operation failed after N attempts"`,
which contains the attempt count. -/
theorem retry_exhausts_attempts (op : Nat → Option GoErr) (maxRetries : Int)
    (initialDelay : Int) (h1 : 1 ≤ maxRetries)
    (hfail : ∀ j : Nat, 1 ≤ j → (j : Int) ≤ maxRetries →
      ∃ e, op j = some e ∧ IsTemporary e = true) :
    ∃ e, op maxRetries.toNat = some e ∧
      (RetryWithBackoff op maxRetries initialDelay).invocations =
        maxRetries.toNat ∧
      (RetryWithBackoff op maxRetries initialDelay).result =
        some (.wrap (retryFailMsg maxRetries) e) ∧
      ∃ p q, retryFailMsg maxRetries = p ++ toString maxRetries ++ q := by
  obtain ⟨e, hop, hi, hr⟩ := retryGo_all_temp op maxRetries maxRetries.toNat 1
    initialDelay none 0 [] (by omega) (by omega)
    (fun j hj hjn => hfail j hj hjn)
  refine ⟨e, ?_, ?_, hr, "operation failed after ", " attempts", rfl⟩
  · rwa [show 1 + maxRetries.toNat - 1 = maxRetries.toNat by omega] at hop
  · have h0 : (RetryWithBackoff op maxRetries initialDelay).invocations =
      0 + maxRetries.toNat := hi
    omega

/-- C3 witness: an always-temporary operation with `maxAttempts = 2`
makes exactly 2 invocations and returns the last error wrapped with
"operation failed after 2 attempts". -/
theorem retry_exhausts_attempts_witness :
    ∃ e, opAllTemp 2 = some e ∧
      (RetryWithBackoff opAllTemp 2 100000000).invocations = 2 ∧
      (RetryWithBackoff opAllTemp 2 100000000).result =
        some (.wrap "operation failed after 2 attempts" e) ∧
      ∃ p q, "operation failed after 2 attempts" = p ++ "2" ++ q := by
  obtain ⟨e, h1, h2, h3, _⟩ := retry_exhausts_attempts opAllTemp 2 100000000
    (by decide) (fun j _ _ => ⟨tempE, rfl, by decide⟩)
  refine ⟨e, h1, h2, ?_, "operation failed after ", " attempts", by decide⟩
  rwa [show retryFailMsg 2 = "operation failed after 2 attempts" from by decide] at h3

/-- C6 (code evaluated at the failing input): the Go driver creates its
context internally from `Background()` and only cancels it via `defer` on
return, so the `select`'s Done branch can never be taken; with an
always-temporary operation, `maxRetries = 3` and `initialDelay = 100ms`,
the driver completes all three attempts and both full backoff waits and
returns the exhaustion error, not a cancellation error — unlike the
spec-modelled driver whose externally supplied signal fires during the
first backoff wait, which stops after one invocation with the cancellation
error. -/
theorem retry_cancellation_dead_branch :
    (RetryWithBackoff opAllTemp 3 100000000).invocations = 3 ∧
    (RetryWithBackoff opAllTemp 3 100000000).waits = [120000000, 240000000] ∧
    (RetryWithBackoff opAllTemp 3 100000000).result ≠ some .ctxCanceled ∧
    RetryWithBackoff opAllTemp 3 100000000 ≠
      RetryWithBackoffCancelable fireAtWaitOne opAllTemp 3 100000000 ∧
    (RetryWithBackoffCancelable fireAtWaitOne opAllTemp 3 100000000).invocations = 1 ∧
    (RetryWithBackoffCancelable fireAtWaitOne opAllTemp 3 100000000).result =
      some .ctxCanceled := by
  decide

/-- Length of the pairing loop's output: half the input length, rounded
down. -/
theorem pairUp_length : ∀ l : List GoVal, (pairUp l).length = l.length / 2
  | [] => rfl
  | [_] => by simp [pairUp]
  | _ :: _ :: rest => by
      rw [pairUp, List.length_cons, List.length_cons, List.length_cons,
        pairUp_length rest]
      omega

/-- Element characterization of the pairing loop: the `i`-th attribute is
built from elements `2i` and `2i+1`, the key going through `attrKey`. -/
theorem pairUp_get : ∀ (l : List GoVal) (i : Nat) (k v : GoVal),
    l[2 * i]? = some k → l[2 * i + 1]? = some v →
    (pairUp l)[i]? = some (attrKey k, v)
  | [], _, _, _, h1, _ => by simp at h1
  | [_], i, _, _, h1, h2 => by
      rcases i with _ | j
      · simp at h2
      · rw [show 2 * (j + 1) = 2 * j + 1 + 1 by omega] at h1
        rw [List.getElem?_cons_succ] at h1
        simp at h1
  | a :: b :: rest, i, k, v, h1, h2 => by
      rcases i with _ | j
      · rw [Nat.mul_zero, List.getElem?_cons_zero, Option.some.injEq] at h1
        rw [Nat.mul_zero, Nat.zero_add, List.getElem?_cons_succ,
          List.getElem?_cons_zero, Option.some.injEq] at h2
        subst h1
        subst h2
        rw [pairUp, List.getElem?_cons_zero]
      · have h1' : rest[2 * j]? = some k := by
          rw [show 2 * (j + 1) = 2 * j + 1 + 1 by omega] at h1
          rwa [List.getElem?_cons_succ, List.getElem?_cons_succ] at h1
        have h2' : rest[2 * j + 1]? = some v := by
          rw [show 2 * (j + 1) + 1 = 2 * j + 1 + 1 + 1 by omega] at h2
          rwa [List.getElem?_cons_succ, List.getElem?_cons_succ] at h2
        rw [pairUp, List.getElem?_cons_succ]
        exact pairUp_get rest j k v h1' h2'

/-- C7: the logged attribute list has exactly `⌊n/2⌋` entries for `n`
input arguments; an odd trailing value is silently dropped (the output
equals that of the input without its last element); and the `i`-th logged
pair is built from input elements `2i` and `2i+1` with a non-string key
going through the default stringification `attrKey`. -/
theorem argsToAttrs_pairs (kv : List GoVal) :
    (argsToAttrs kv).length = kv.length / 2 ∧
    (kv.length % 2 = 1 → argsToAttrs kv = argsToAttrs kv.dropLast) ∧
    (∀ i k v, (truncOdd kv)[2 * i]? = some k →
      (truncOdd kv)[2 * i + 1]? = some v →
      (argsToAttrs kv)[i]? = some (attrKey k, v)) := by
  refine ⟨?_, ?_, ?_⟩
  · rw [argsToAttrs, pairUp_length, truncOdd]
    split
    · rw [List.length_dropLast]
      omega
    · rfl
  · intro hodd
    have h1 : truncOdd kv = kv.dropLast := by
      rw [truncOdd, if_pos]
      omega
    have h2 : truncOdd kv.dropLast = kv.dropLast := by
      rw [truncOdd, if_neg]
      rw [List.length_dropLast]
      omega
    rw [argsToAttrs, argsToAttrs, h1, h2]
  · intro i k v h1 h2
    exact pairUp_get (truncOdd kv) i k v h1 h2

/-- C7 witness: five arguments (odd count, one non-string key) produce
exactly two attributes, the same as without the dangling fifth value, and
attribute 1 has the stringified key "7". -/
theorem argsToAttrs_pairs_witness :
    (argsToAttrs [.str "a", .int 1, .int 7, .str "x", .str "drop"]).length = 2 ∧
    argsToAttrs [.str "a", .int 1, .int 7, .str "x", .str "drop"] =
      argsToAttrs [.str "a", .int 1, .int 7, .str "x"] ∧
    (argsToAttrs [.str "a", .int 1, .int 7, .str "x", .str "drop"])[1]? =
      some ("7", .str "x") := by
  have h := argsToAttrs_pairs [.str "a", .int 1, .int 7, .str "x", .str "drop"]
  refine ⟨h.1, h.2.1 (by decide), ?_⟩
  have h3 := h.2.2 1 (.int 7) (.str "x") (by decide) (by decide)
  exact h3

/-- Inserting an absent key appends the new entry at the end. -/
theorem mapInsert_notMem : ∀ (l : List (Nat × User)) (k : Nat) (u : User),
    mapLookup l k = none → mapInsert l k u = l ++ [(k, u)]
  | [], _, _, _ => rfl
  | (k', v') :: rest, k, u, h => by
      rw [mapLookup] at h
      by_cases hk : k' = k
      · rw [if_pos hk] at h
        exact absurd h (by simp)
      · rw [if_neg hk] at h
        rw [mapInsert, if_neg hk, List.cons_append, mapInsert_notMem rest k u h]

/-- Appending an entry for a different key does not change a lookup. -/
theorem mapLookup_append_other :
    ∀ (l : List (Nat × User)) (kn : Nat) (u : User) (k : Nat),
    k ≠ kn → mapLookup (l ++ [(kn, u)]) k = mapLookup l k
  | [], kn, u, k, h => by
      simp only [List.nil_append, mapLookup]
      rw [if_neg (fun hh => h hh.symm)]
  | (k', v') :: rest, kn, u, k, h => by
      rw [List.cons_append, mapLookup, mapLookup]
      by_cases hk : k' = k
      · rw [if_pos hk, if_pos hk]
      · rw [if_neg hk, if_neg hk, mapLookup_append_other rest kn u k h]

/-- Appending an entry for a previously absent key makes it found. -/
theorem mapLookup_append_self : ∀ (l : List (Nat × User)) (kn : Nat) (u : User),
    mapLookup l kn = none → mapLookup (l ++ [(kn, u)]) kn = some u
  | [], kn, u, _ => by
      rw [List.nil_append, mapLookup, if_pos rfl]
  | (k', v') :: rest, kn, u, h => by
      rw [mapLookup] at h
      by_cases hk : k' = kn
      · rw [if_pos hk] at h
        exact absurd h (by simp)
      · rw [if_neg hk] at h
        rw [List.cons_append, mapLookup, if_neg hk]
        exact mapLookup_append_self rest kn u h

/-- C9: `GetUser` never modifies the store; `CreateUser` on a validation
failure (empty name or empty email) returns an error with the store
unchanged; on success with a store not already containing key
`len(users)+1` it adds exactly that one entry, leaves every other key's
lookup unchanged, and grows the store by one. -/
theorem userStore_frame (users : List (Nat × User)) (id : Nat) (flaky : Bool)
    (name email : String) (now : Nat) :
    (GetUser users id flaky).2 = users ∧
    (name = "" ∨ email = "" →
      (∃ e, (CreateUser users name email now).1 = .error e) ∧
      (CreateUser users name email now).2 = users) ∧
    (name ≠ "" → email ≠ "" → mapLookup users (users.length + 1) = none →
      (CreateUser users name email now).1 =
        .ok ⟨users.length + 1, name, email, now⟩ ∧
      (CreateUser users name email now).2 =
        users ++ [(users.length + 1, ⟨users.length + 1, name, email, now⟩)] ∧
      mapLookup (CreateUser users name email now).2 (users.length + 1) =
        some ⟨users.length + 1, name, email, now⟩ ∧
      (∀ k, k ≠ users.length + 1 →
        mapLookup (CreateUser users name email now).2 k = mapLookup users k) ∧
      (CreateUser users name email now).2.length = users.length + 1) := by
  refine ⟨?_, ?_, ?_⟩
  · rw [GetUser]
    split
    · rfl
    · split <;> rfl
  · intro h
    rw [CreateUser]
    by_cases hn : name = ""
    · rw [if_pos hn]
      exact ⟨⟨nameRequiredErr, rfl⟩, rfl⟩
    · have he : email = "" := by tauto
      rw [if_neg hn, if_pos he]
      exact ⟨⟨emailRequiredErr, rfl⟩, rfl⟩
  · intro hn he hfree
    have hstore : (CreateUser users name email now).2 =
        users ++ [(users.length + 1, ⟨users.length + 1, name, email, now⟩)] := by
      rw [CreateUser, if_neg hn, if_neg he]
      exact mapInsert_notMem users (users.length + 1) _ hfree
    refine ⟨?_, hstore, ?_, ?_, ?_⟩
    · rw [CreateUser, if_neg hn, if_neg he]
    · rw [hstore]
      exact mapLookup_append_self users (users.length + 1) _ hfree
    · intro k hk
      rw [hstore]
      exact mapLookup_append_other users (users.length + 1) _ k hk
    · rw [hstore, List.length_append, List.length_cons, List.length_nil]

/-- C9 witness: on the three-user initial store, a read leaves the store
unchanged and a valid create appends exactly the entry keyed 4. -/
theorem userStore_frame_witness :
    (GetUser usersABC 2 false).2 = usersABC ∧
    (CreateUser usersABC "David" "d@example.com" 11).1 =
      .ok ⟨4, "David", "d@example.com", 11⟩ ∧
    (CreateUser usersABC "David" "d@example.com" 11).2 =
      usersABC ++ [(4, ⟨4, "David", "d@example.com", 11⟩)] ∧
    (CreateUser usersABC "" "d@example.com" 11).2 = usersABC := by
  have h := userStore_frame usersABC 2 false "David" "d@example.com" 11
  have hempty := userStore_frame usersABC 2 false "" "d@example.com" 11
  have h3 := h.2.2 (by decide) (by decide) (by decide)
  exact ⟨h.1, h3.1, h3.2.1, (hempty.2.1 (Or.inl rfl)).2⟩

end CrdbEx
